import Mathlib

/-!
Shallow embedding of the OpenNero rtNEAT real-time evolution controller
(source file: src/branches/factory/source/ai/rtneat/rtNEAT.cpp).

Modelling conventions:
* F32/F64 scores and fitness values are modelled as rationals (ℚ); the
  algorithms only compare, subtract, clamp at 0 and scale by 0.01, and the
  claims under verification concern those exact algebraic operations.
* Pointers to NEAT organisms are modelled by a numeric organism id carried
  inside each organism record; pointer equality between two references to
  the same organism becomes equality of ids.
* Brains (PyOrganism objects) are stored in the mBrainList; the
  brain-body bimap and the waiting queue refer to brains by their index in
  that list.  A std::queue push lands at the back of the list, front/pop
  work at the head.
* The external Genome Engine (rtneat/population.h, an external collaborator
  per the spec) is modelled by an oracle record carrying the responses the
  controller consumes in one evolution cycle: the organism removed by
  remove_worst (none if no organism was eligible), the current number of
  species, and the offspring organism produced by reproduce_one.
* AssertMsg/Assert are modelled twice: an assertion-enabled semantics in
  the Except monad, where a failed assertion aborts the computation with
  its message, and a release semantics where assertions are no-ops.
-/

/-- A NEAT organism as seen by rtNEAT.cpp: identity plus the mutable fields
fitness, time_alive and smited that the controller reads and writes. -/
structure Organism where
  id : Nat
  fitness : ℚ
  time_alive : Nat
  smited : Bool
deriving DecidableEq

/-- PyOrganism: a Brain, wrapping the current organism and the raw
accumulated absolute score mAbsoluteScore. -/
structure PyOrganism where
  org : Organism
  mAbsoluteScore : ℚ
deriving DecidableEq

/-- The controller state: the fields of class RTNEAT that rtNEAT.cpp
mutates, plus the process-wide NEAT globals it uses (compat_threshold,
time_alive_minimum) and the configuration thresholds read by ProcessTick. -/
structure RTState where
  /-- bimap body id -> brain index (mBrainBodyMap) -/
  mBrainBodyMap : List (Nat × Nat) := []
  /-- FIFO queue of brain indices (mWaitingBrainList); head = front -/
  mWaitingBrainList : List Nat := []
  /-- all known brains (mBrainList) -/
  mBrainList : List PyOrganism := []
  mOffspringCount : Nat := 0
  mSpawnTickCount : Nat := 0
  mEvolutionTickCount : Nat := 0
  mTotalUnitsDeleted : Nat := 0
  mUnitsToDeleteBeforeFirstJudgment : Nat := 0
  mTimeBetweenEvolutions : Nat := 0
  /-- NEAT::time_alive_minimum (set to 1 by both constructors) -/
  timeAliveMinimum : Nat := 1
  /-- NEAT::compat_threshold -/
  compatThreshold : ℚ := 1
deriving DecidableEq

/-- Result of a binding-table operation.  ok carries the result;
assertFailed models a checked Assert/AssertMsg present in the source
firing; undefinedBehavior models an operation the source performs with no
check whose C++ semantics is undefined (e.g. std::queue front on an empty
queue). -/
inductive TableResult (α : Type) where
  | ok : α → TableResult α
  | assertFailed : String → TableResult α
  | undefinedBehavior : TableResult α
deriving DecidableEq

/-- Is this result a failed (checked) assertion? -/
def TableResult.isAssertFailed {α : Type} : TableResult α → Bool
  | TableResult.assertFailed _ => true
  | _ => false

/-- RTNEAT::have_organism — true iff the body has an entry in the
brain-body bimap (rtNEAT.cpp lines 100-105). -/
def have_organism (body : Nat) (st : RTState) : Bool :=
  (st.mBrainBodyMap.find? (fun p => p.1 == body)).isSome

/-- RTNEAT::ready — the waiting queue is non-empty (lines 94-97). -/
def ready (st : RTState) : Bool :=
  !st.mWaitingBrainList.isEmpty

/-- RTNEAT::get_organism (lines 108-124): return the bound brain if the
body is bound; otherwise pop the front of the waiting queue and install
the binding.  The source performs front()/pop() with no assertion, so an
empty queue is undefined behavior, not a checked failure. -/
def get_organism (body : Nat) (st : RTState) : TableResult (Nat × RTState) :=
  match st.mBrainBodyMap.find? (fun p => p.1 == body) with
  | some p => TableResult.ok (p.2, st)
  | none =>
    match st.mWaitingBrainList with
    | [] => TableResult.undefinedBehavior
    | b :: rest =>
      TableResult.ok (b, { st with mWaitingBrainList := rest,
                                   mBrainBodyMap := st.mBrainBodyMap ++ [(body, b)] })

/-- RTNEAT::release_organism (lines 127-133): look up the binding,
Assert it exists, and push the brain onto the waiting queue.  Note that
the source never erases the bimap entry. -/
def release_organism (body : Nat) (st : RTState) : TableResult RTState :=
  match st.mBrainBodyMap.find? (fun p => p.1 == body) with
  | none => TableResult.assertFailed "found != mBrainBodyMap.left.end()"
  | some p =>
    TableResult.ok { st with mWaitingBrainList := st.mWaitingBrainList ++ [p.2] }

/-- RTNEAT::deleteUnit (lines 154-164): push the brain onto the waiting
queue, erase its bimap entry (right.erase), and increment the lifetime
deletion counter. -/
def deleteUnit (brain : Nat) (st : RTState) : RTState :=
  { st with mWaitingBrainList := st.mWaitingBrainList ++ [brain],
            mBrainBodyMap := st.mBrainBodyMap.filter (fun p => p.2 ≠ brain),
            mTotalUnitsDeleted := st.mTotalUnitsDeleted + 1 }

/-! ### evaluateAll, assertion-enabled semantics

With assertions enabled, AssertMsg(false, msg) aborts the call with msg.
The first loop of RTNEAT::evaluateAll (lines 211-221) reaches such an
assertion for every brain whose organism has time_alive at or above
NEAT::time_alive_minimum; if the loop finishes, the unconditional
assertion at line 224 fires. -/

/-- First loop of RTNEAT::evaluateAll (lines 211-221) under
assertion-enabled semantics: the first eligible brain aborts the loop with
one of the two FIXME assertion messages (the trial-boundary branch at
lines 213-218 first increments time_alive, but the state is lost in the
abort). -/
def evalLoop1 (tam : Nat) : List PyOrganism → Except String Unit
  | [] => Except.ok ()
  | b :: rest =>
    if tam ≤ b.org.time_alive then
      if b.org.time_alive % tam = 0 ∧ 0 < b.org.time_alive then
        Except.error "FIXME/TODO: start next trial to normalize by time_alive_minimum"
      else
        Except.error "FIXME/TODO: add stats samples"
    else evalLoop1 tam rest

/-- RTNEAT::evaluateAll (lines 200-274) under assertion-enabled semantics:
run the first loop; if it completes, the unconditional assertion at line
224 fires, so the normalization loops (lines 226-273) are never reached. -/
def evaluateAllAsserting (tam : Nat) (bs : List PyOrganism) :
    Except String (List PyOrganism) :=
  match evalLoop1 tam bs with
  | Except.error m => Except.error m
  | Except.ok _ => Except.error "FIXME/TODO: mScoreHelper->doCalculations()"

/-! ### evaluateAll, release semantics (assertions compiled out) -/

/-- Effect on one brain of the first loop of RTNEAT::evaluateAll (lines
211-221) with assertions as no-ops: an eligible brain at a trial boundary
gets its time_alive incremented (line 216); nothing else changes. -/
def phase1Brain (tam : Nat) (b : PyOrganism) : PyOrganism :=
  if tam ≤ b.org.time_alive then
    if b.org.time_alive % tam = 0 ∧ 0 < b.org.time_alive then
      { b with org := { b.org with time_alive := b.org.time_alive + 1 } }
    else b
  else b

/-- First loop of RTNEAT::evaluateAll over the whole brain list, release
semantics. -/
def phase1 (tam : Nat) (bs : List PyOrganism) : List PyOrganism :=
  bs.map (phase1Brain tam)

/-- minAbsoluteScore as computed by the loop at lines 226-239: start at 0
and lower the accumulator whenever an eligible brain's raw score is below
it.  (The maxAbsoluteScore/champ computed alongside are never used by the
source after the loop, so they are omitted.) -/
def minAbsoluteScore (tam : Nat) (bs : List PyOrganism) : ℚ :=
  bs.foldl
    (fun acc b =>
      if tam ≤ b.org.time_alive then
        if b.mAbsoluteScore < acc then b.mAbsoluteScore else acc
      else acc)
    0

/-- Per-brain effect of the negative-minimum branch of RTNEAT::evaluateAll
(lines 241-259): shift the raw score by minAbsoluteScore, clamp at 0, and
write it (scaled by 0.01 if smited) into the organism's fitness; brains
below the time-alive minimum are untouched. -/
def applyFitnessNeg (tam : Nat) (minS : ℚ) (b : PyOrganism) : PyOrganism :=
  if tam ≤ b.org.time_alive then
    let m0 := b.mAbsoluteScore - minS
    let m := if m0 < 0 then 0 else m0
    if b.org.smited then
      { b with org := { b.org with fitness := (1 / 100) * m } }
    else
      { b with org := { b.org with fitness := m } }
  else b

/-- Per-brain effect of the non-negative-minimum branch of
RTNEAT::evaluateAll (lines 260-273): write the raw score (scaled by 0.01
if smited) into the organism's fitness; brains below the time-alive
minimum are untouched. -/
def applyFitnessNonneg (tam : Nat) (b : PyOrganism) : PyOrganism :=
  if tam ≤ b.org.time_alive then
    if b.org.smited then
      { b with org := { b.org with fitness := (1 / 100) * b.mAbsoluteScore } }
    else
      { b with org := { b.org with fitness := b.mAbsoluteScore } }
  else b

/-- The aggregation pass of RTNEAT::evaluateAll (lines 226-273): compute
minAbsoluteScore over eligible brains, then run the branch selected by its
sign over the whole brain list. -/
def aggregationPass (tam : Nat) (bs : List PyOrganism) : List PyOrganism :=
  if minAbsoluteScore tam bs < 0 then
    bs.map (applyFitnessNeg tam (minAbsoluteScore tam bs))
  else
    bs.map (applyFitnessNonneg tam)

/-- RTNEAT::evaluateAll under release semantics: the first loop followed
by the aggregation pass. -/
def evaluateAllRelease (tam : Nat) (bs : List PyOrganism) : List PyOrganism :=
  aggregationPass tam (phase1 tam bs)

/-! ### evolveAll -/

/-- File-level constant kNumSpeciesTarget (rtNEAT.cpp line 25).  Declared
in the source's anonymous namespace but not used by evolveAll, which
declares its own local target. -/
def kNumSpeciesTarget : Nat := 5

/-- File-level constant kCompatMod (line 26), likewise unused by
evolveAll. -/
def kCompatMod : ℚ := 1 / 10

/-- File-level constant kMinCompatThreshold (line 27), likewise unused by
evolveAll, which writes the literal 0.3. -/
def kMinCompatThreshold : ℚ := 3 / 10

/-- Local num_species_target of RTNEAT::evolveAll (line 282). -/
def num_species_target : Nat := 4

/-- Local compat_mod of RTNEAT::evolveAll (line 352). -/
def compat_mod : ℚ := 1 / 10

/-- compat_adjust_frequency (lines 283-285): mBrainList.size()/10 in
integer division, raised to 1 if below 1. -/
def compat_adjust_frequency (brainCount : Nat) : Nat :=
  let f := brainCount / 10
  if f < 1 then 1 else f

/-- The un-clamped compatibility-threshold step of RTNEAT::evolveAll
(lines 355-358): step down when under the local target, step up when over
it, unchanged when equal. -/
def adjustStep (numSpecies : Nat) (t : ℚ) : ℚ :=
  if numSpecies < num_species_target then t - compat_mod
  else if num_species_target < numSpecies then t + compat_mod
  else t

/-- The full compatibility-threshold adjustment of RTNEAT::evolveAll
(lines 355-361): the step followed by the clamp at the literal floor 0.3
(lines 360-361). -/
def adjustThreshold (numSpecies : Nat) (t : ℚ) : ℚ :=
  if adjustStep numSpecies t < 3 / 10 then 3 / 10 else adjustStep numSpecies t

/-- Responses of the external Genome Engine (rtneat/population.h) consumed
by one RTNEAT::evolveAll call: the id of the organism removed by
Population::remove_worst (none if no organism was eligible), the current
species count at adjustment time, and the offspring organism produced by
reproduce_one.  estimate_average, choose_parent_species and
reassign_species mutate only engine-internal state. -/
structure EngineOracle where
  removeWorst : Option Nat
  numSpecies : Nat
  newOrg : Organism

/-- Replace the element at an index of a list, leaving other elements and
the length unchanged. -/
def listModify {α : Type} (f : α → α) : Nat → List α → List α
  | _, [] => []
  | 0, a :: t => f a :: t
  | n + 1, a :: t => a :: listModify f n t

/-- The reproduction step of RTNEAT::evolveAll: reproduce_one creates the
offspring inside the engine; the controller increments mOffspringCount
(line 346). -/
def evolveReproduce (st : RTState) : RTState :=
  { st with mOffspringCount := st.mOffspringCount + 1 }

/-- The conditional threshold re-tuning of RTNEAT::evolveAll (lines
349-369): when the (already incremented) offspring counter is divisible by
compat_adjust_frequency, adjust the compatibility threshold; the species
reassignment loop mutates only engine-internal state. -/
def evolveAdjust (numSpecies : Nat) (st : RTState) : RTState :=
  if st.mOffspringCount % compat_adjust_frequency st.mBrainList.length = 0 then
    { st with compatThreshold := adjustThreshold numSpecies st.compatThreshold }
  else st

/-- The hot-swap of RTNEAT::evolveAll (lines 375-383): find the first
brain holding the dead organism, swap its organism to the new one
(SetOrganism), and deleteUnit it. -/
def evolveSwap (deadId : Nat) (newOrg : Organism) (st : RTState) : RTState :=
  match st.mBrainList.findIdx? (fun b => b.org.id == deadId) with
  | none => st
  | some i =>
    deleteUnit i
      { st with mBrainList :=
          listModify (fun b => { b with org := newOrg }) i st.mBrainList }

/-- RTNEAT::evolveAll (lines 276-385), release semantics.  If
remove_worst removed nothing, the whole call changes no controller state
(lines 289-291: the body is guarded by if (deadorg)).  Otherwise:
reproduce one offspring, conditionally re-tune the threshold, hot-swap the
dead organism's brain. -/
def evolveAll (oracle : EngineOracle) (st : RTState) : RTState :=
  match oracle.removeWorst with
  | none => st
  | some deadId =>
    evolveSwap deadId oracle.newOrg
      (evolveAdjust oracle.numSpecies (evolveReproduce st))

/-! ### ProcessTick -/

/-- The death scan of RTNEAT::ProcessTick (lines 175-186): walk the
brain-body bimap and deleteUnit every brain whose body is no longer found
in the simulation (the C++ advances the iterator before deleteUnit erases
the current entry, so the walk covers exactly the original entries). -/
def deathScan (alive : Nat → Bool) (st : RTState) : RTState :=
  st.mBrainBodyMap.foldl
    (fun s p => if alive p.1 then s else deleteUnit p.2 s) st

/-- Counter increments (lines 169-170) followed by the death scan. -/
def tickPhaseA (alive : Nat → Bool) (st : RTState) : RTState :=
  deathScan alive
    { st with mSpawnTickCount := st.mSpawnTickCount + 1,
              mEvolutionTickCount := st.mEvolutionTickCount + 1 }

/-- The evaluateAll call of ProcessTick (line 189), release semantics. -/
def tickPhaseB (st : RTState) : RTState :=
  { st with mBrainList := evaluateAllRelease st.timeAliveMinimum st.mBrainList }

/-- The evolution activation predicate of ProcessTick (line 193):
enough lifetime deletions and enough ticks since the last evolution. -/
def evolvePredicate (st : RTState) : Bool :=
  decide (st.mUnitsToDeleteBeforeFirstJudgment ≤ st.mTotalUnitsDeleted) &&
  decide (st.mTimeBetweenEvolutions ≤ st.mEvolutionTickCount)

/-- RTNEAT::ProcessTick (lines 166-198), release semantics: increment
counters, run the death scan, evaluate all brains, and — when the
activation predicate holds — run evolveAll and then reset
mEvolutionTickCount to zero (lines 193-197). -/
def ProcessTickRelease (alive : Nat → Bool) (oracle : EngineOracle)
    (st : RTState) : RTState :=
  let s := tickPhaseB (tickPhaseA alive st)
  if evolvePredicate s then
    { evolveAll oracle s with mEvolutionTickCount := 0 }
  else s

/-- RTNEAT::ProcessTick under assertion-enabled semantics: the
evaluateAll call at line 189 runs in the Except monad; a failed assertion
aborts the tick before the activation check at line 193. -/
def ProcessTickAsserting (alive : Nat → Bool) (oracle : EngineOracle)
    (st : RTState) : Except String RTState :=
  let s := tickPhaseA alive st
  match evaluateAllAsserting s.timeAliveMinimum s.mBrainList with
  | Except.error m => Except.error m
  | Except.ok bl =>
    let s2 : RTState := { s with mBrainList := bl }
    if evolvePredicate s2 then
      Except.ok { evolveAll oracle s2 with mEvolutionTickCount := 0 }
    else Except.ok s2

/-! ### Helper lemmas -/

/-- A clamp written as the source writes it equals a max. -/
lemma ite_neg_clamp (x : ℚ) : (if x < 0 then (0 : ℚ) else x) = max 0 x := by
  rcases le_or_lt 0 x with h | h
  · rw [if_neg (not_lt.mpr h), max_eq_right h]
  · rw [if_pos h, max_eq_left h.le]

/-- The minAbsoluteScore fold never rises above its initial accumulator. -/
lemma minAbs_fold_le_init (tam : Nat) (bs : List PyOrganism) : ∀ a : ℚ,
    bs.foldl
      (fun acc b =>
        if tam ≤ b.org.time_alive then
          if b.mAbsoluteScore < acc then b.mAbsoluteScore else acc
        else acc) a ≤ a := by
  induction bs with
  | nil => intro a; exact le_refl a
  | cons b t ih =>
    intro a
    rw [List.foldl_cons]
    refine le_trans (ih _) ?_
    by_cases h1 : tam ≤ b.org.time_alive
    · by_cases h2 : b.mAbsoluteScore < a
      · simp only [h1, h2, if_true]
        exact h2.le
      · simp [h1, h2]
    · simp [h1]

/-- The minAbsoluteScore fold is below every eligible score in the list. -/
lemma minAbs_fold_le_mem (tam : Nat) (bs : List PyOrganism) : ∀ (a : ℚ),
    ∀ b ∈ bs, tam ≤ b.org.time_alive →
    bs.foldl
      (fun acc b =>
        if tam ≤ b.org.time_alive then
          if b.mAbsoluteScore < acc then b.mAbsoluteScore else acc
        else acc) a ≤ b.mAbsoluteScore := by
  induction bs with
  | nil => intro a b hb; exact absurd hb (List.not_mem_nil b)
  | cons hd t ih =>
    intro a b hb he
    rw [List.foldl_cons]
    rcases List.mem_cons.mp hb with h | h
    · subst h
      refine le_trans (minAbs_fold_le_init tam t _) ?_
      simp only [he, if_true]
      by_cases h2 : b.mAbsoluteScore < a
      · rw [if_pos h2]
      · rw [if_neg h2]; exact not_lt.mp h2
    · exact ih _ b h he

/-- The minAbsoluteScore fold either stays at its initial accumulator or
lands exactly on the score of some eligible brain. -/
lemma minAbs_fold_attained (tam : Nat) (bs : List PyOrganism) : ∀ a : ℚ,
    bs.foldl
      (fun acc b =>
        if tam ≤ b.org.time_alive then
          if b.mAbsoluteScore < acc then b.mAbsoluteScore else acc
        else acc) a = a ∨
    ∃ b ∈ bs, tam ≤ b.org.time_alive ∧
      bs.foldl
        (fun acc b =>
          if tam ≤ b.org.time_alive then
            if b.mAbsoluteScore < acc then b.mAbsoluteScore else acc
          else acc) a = b.mAbsoluteScore := by
  induction bs with
  | nil => intro a; exact Or.inl rfl
  | cons hd t ih =>
    intro a
    rw [List.foldl_cons]
    rcases ih (if tam ≤ hd.org.time_alive then
        if hd.mAbsoluteScore < a then hd.mAbsoluteScore else a else a) with h | h
    · by_cases h1 : tam ≤ hd.org.time_alive
      · by_cases h2 : hd.mAbsoluteScore < a
        · refine Or.inr ⟨hd, List.mem_cons_self hd t, h1, ?_⟩
          rw [h, if_pos h1, if_pos h2]
        · refine Or.inl ?_
          rw [h, if_pos h1, if_neg h2]
      · refine Or.inl ?_
        rw [h, if_neg h1]
    · rcases h with ⟨b, hb, he, heq⟩
      exact Or.inr ⟨b, List.mem_cons_of_mem hd hb, he, heq⟩

/-- minAbsoluteScore is never positive. -/
lemma minAbs_nonpos (tam : Nat) (bs : List PyOrganism) :
    minAbsoluteScore tam bs ≤ 0 :=
  minAbs_fold_le_init tam bs 0

/-- minAbsoluteScore is below every eligible score. -/
lemma minAbs_le_mem (tam : Nat) (bs : List PyOrganism) (b : PyOrganism)
    (hb : b ∈ bs) (he : tam ≤ b.org.time_alive) :
    minAbsoluteScore tam bs ≤ b.mAbsoluteScore :=
  minAbs_fold_le_mem tam bs 0 b hb he

/-- minAbsoluteScore is 0 or the score of some eligible brain. -/
lemma minAbs_attained (tam : Nat) (bs : List PyOrganism) :
    minAbsoluteScore tam bs = 0 ∨
    ∃ b ∈ bs, tam ≤ b.org.time_alive ∧ b.mAbsoluteScore = minAbsoluteScore tam bs := by
  rcases minAbs_fold_attained tam bs 0 with h | ⟨b, hb, he, heq⟩
  · exact Or.inl h
  · exact Or.inr ⟨b, hb, he, heq.symm⟩

/-- An element of the zip of a list with its own map has its second
component equal to the map applied to its first component. -/
lemma zip_map_snd {α β : Type} (g : α → β) :
    ∀ (l : List α) (p : α × β), p ∈ l.zip (l.map g) → p.2 = g p.1 ∧ p.1 ∈ l := by
  intro l
  induction l with
  | nil => intro p h; simp at h
  | cons a t ih =>
    intro p h
    rw [List.map_cons, List.zip_cons_cons] at h
    rcases List.mem_cons.mp h with h | h
    · subst h; exact ⟨rfl, List.mem_cons_self a t⟩
    · rcases ih p h with ⟨h1, h2⟩
      exact ⟨h1, List.mem_cons_of_mem a h2⟩

/-- Elementwise view of the aggregation pass. -/
lemma aggregationPass_elem (tam : Nat) (bs : List PyOrganism)
    (p : PyOrganism × PyOrganism) (hp : p ∈ bs.zip (aggregationPass tam bs)) :
    p.1 ∈ bs ∧
    p.2 = (if minAbsoluteScore tam bs < 0 then
             applyFitnessNeg tam (minAbsoluteScore tam bs) p.1
           else applyFitnessNonneg tam p.1) := by
  unfold aggregationPass at hp
  by_cases h : minAbsoluteScore tam bs < 0
  · rw [if_pos h] at hp
    rcases zip_map_snd _ bs p hp with ⟨h1, h2⟩
    exact ⟨h2, by rw [if_pos h]; exact h1⟩
  · rw [if_neg h] at hp
    rcases zip_map_snd _ bs p hp with ⟨h1, h2⟩
    exact ⟨h2, by rw [if_neg h]; exact h1⟩

/-- A brain below the time-alive minimum is untouched by the aggregation
pass. -/
lemma agg_untouched (tam : Nat) (bs : List PyOrganism)
    (p : PyOrganism × PyOrganism) (hp : p ∈ bs.zip (aggregationPass tam bs))
    (hlt : p.1.org.time_alive < tam) : p.2 = p.1 := by
  rcases aggregationPass_elem tam bs p hp with ⟨-, h⟩
  rw [h]
  unfold applyFitnessNeg applyFitnessNonneg
  rw [if_neg (not_le.mpr hlt), if_neg (not_le.mpr hlt), ite_self]

/-- Fitness written by the aggregation pass into an eligible brain: the
branch formula, scaled by 0.01 exactly when the organism is smited. -/
lemma agg_fitness (tam : Nat) (bs : List PyOrganism)
    (p : PyOrganism × PyOrganism) (hp : p ∈ bs.zip (aggregationPass tam bs))
    (he : tam ≤ p.1.org.time_alive) :
    p.2.org.fitness =
      (if p.1.org.smited then (1 / 100 : ℚ) else 1) *
      (if minAbsoluteScore tam bs < 0 then
         max 0 (p.1.mAbsoluteScore - minAbsoluteScore tam bs)
       else p.1.mAbsoluteScore) := by
  rcases aggregationPass_elem tam bs p hp with ⟨-, h⟩
  by_cases hm : minAbsoluteScore tam bs < 0
  · rw [if_pos hm] at h
    rw [h, if_pos hm]
    unfold applyFitnessNeg
    rw [if_pos he]
    by_cases hs : p.1.org.smited
    · simp only [hs, if_true]
      rw [ite_neg_clamp]
    · simp only [hs, if_false, Bool.false_eq_true]
      rw [ite_neg_clamp, one_mul]
  · rw [if_neg hm] at h
    rw [h, if_neg hm]
    unfold applyFitnessNonneg
    rw [if_pos he]
    by_cases hs : p.1.org.smited
    · simp only [hs, if_true]
    · simp only [hs, if_false, Bool.false_eq_true]
      rw [one_mul]

/-- The branch formula of the aggregation pass is non-negative for every
eligible brain. -/
lemma agg_formula_nonneg (tam : Nat) (bs : List PyOrganism) (b : PyOrganism)
    (hb : b ∈ bs) (he : tam ≤ b.org.time_alive) :
    0 ≤ (if minAbsoluteScore tam bs < 0 then
           max 0 (b.mAbsoluteScore - minAbsoluteScore tam bs)
         else b.mAbsoluteScore) := by
  by_cases hm : minAbsoluteScore tam bs < 0
  · rw [if_pos hm]; exact le_max_left 0 _
  · rw [if_neg hm]
    have h1 : minAbsoluteScore tam bs = 0 :=
      le_antisymm (minAbs_nonpos tam bs) (not_lt.mp hm)
    have h2 := minAbs_le_mem tam bs b hb he
    rw [h1] at h2
    exact h2

/-- The fitness written by the aggregation pass is non-negative for every
eligible brain. -/
lemma agg_fitness_nonneg (tam : Nat) (bs : List PyOrganism)
    (p : PyOrganism × PyOrganism) (hp : p ∈ bs.zip (aggregationPass tam bs))
    (he : tam ≤ p.1.org.time_alive) : 0 ≤ p.2.org.fitness := by
  rw [agg_fitness tam bs p hp he]
  refine mul_nonneg ?_
    (agg_formula_nonneg tam bs p.1 (aggregationPass_elem tam bs p hp).1 he)
  by_cases hs : p.1.org.smited
  · rw [if_pos hs]; norm_num
  · rw [if_neg hs]; norm_num

/-- Fitness written into an eligible un-smited brain: the bare branch
formula. -/
lemma agg_fitness_unsmited (tam : Nat) (bs : List PyOrganism)
    (p : PyOrganism × PyOrganism) (hp : p ∈ bs.zip (aggregationPass tam bs))
    (he : tam ≤ p.1.org.time_alive) (hs : p.1.org.smited = false) :
    p.2.org.fitness =
      (if minAbsoluteScore tam bs < 0 then
         max 0 (p.1.mAbsoluteScore - minAbsoluteScore tam bs)
       else p.1.mAbsoluteScore) := by
  have h := agg_fitness tam bs p hp he
  rw [hs] at h
  simpa using h

/-- Fitness written into an eligible smited brain: the branch formula
scaled by 0.01. -/
lemma agg_fitness_smited (tam : Nat) (bs : List PyOrganism)
    (p : PyOrganism × PyOrganism) (hp : p ∈ bs.zip (aggregationPass tam bs))
    (he : tam ≤ p.1.org.time_alive) (hs : p.1.org.smited = true) :
    p.2.org.fitness =
      (1 / 100 : ℚ) *
      (if minAbsoluteScore tam bs < 0 then
         max 0 (p.1.mAbsoluteScore - minAbsoluteScore tam bs)
       else p.1.mAbsoluteScore) := by
  have h := agg_fitness tam bs p hp he
  rw [hs] at h
  simpa using h

/-- evaluateAll never completes under assertion-enabled semantics. -/
lemma evaluateAllAsserting_ne_ok (tam : Nat) (bs : List PyOrganism) :
    ∀ r, evaluateAllAsserting tam bs ≠ Except.ok r := by
  intro r
  unfold evaluateAllAsserting
  cases h : evalLoop1 tam bs
  · intro h2; exact Except.noConfusion h2
  · intro h2; exact Except.noConfusion h2

/-- The first loop of evaluateAll completes when no brain is eligible. -/
lemma evalLoop1_all_young (tam : Nat) :
    ∀ bs : List PyOrganism, (∀ b ∈ bs, b.org.time_alive < tam) →
    evalLoop1 tam bs = Except.ok () := by
  intro bs
  induction bs with
  | nil => intro h; rfl
  | cons b t ih =>
    intro h
    have hb := h b (List.mem_cons_self b t)
    unfold evalLoop1
    rw [if_neg (not_le.mpr hb)]
    exact ih (fun x hx => h x (List.mem_cons_of_mem b hx))

/-- ProcessTick never completes under assertion-enabled semantics. -/
lemma ProcessTickAsserting_ne_ok (alive : Nat → Bool) (oracle : EngineOracle)
    (st : RTState) : ∀ r, ProcessTickAsserting alive oracle st ≠ Except.ok r := by
  intro r
  simp only [ProcessTickAsserting]
  cases h : evaluateAllAsserting (tickPhaseA alive st).timeAliveMinimum
      (tickPhaseA alive st).mBrainList with
  | error m => intro h2; exact Except.noConfusion h2
  | ok bl => exact absurd h (evaluateAllAsserting_ne_ok _ _ bl)

/-- The adjusted threshold never falls below the 0.3 floor. -/
lemma adjustThreshold_ge (ns : Nat) (t : ℚ) : 3 / 10 ≤ adjustThreshold ns t := by
  unfold adjustThreshold
  by_cases h : adjustStep ns t < 3 / 10
  · rw [if_pos h]
  · rw [if_neg h]; exact not_lt.mp h

/-- The source's clamp written as a max. -/
lemma adjustThreshold_eq_max (ns : Nat) (t : ℚ) :
    adjustThreshold ns t = max (3 / 10) (adjustStep ns t) := by
  unfold adjustThreshold
  rcases le_or_lt (3 / 10 : ℚ) (adjustStep ns t) with h | h
  · rw [if_neg (not_lt.mpr h), max_eq_right h]
  · rw [if_pos h, max_eq_left h.le]

/-- The hot-swap phase of evolveAll does not touch the offspring counter. -/
lemma evolveSwap_count (d : Nat) (o : Organism) (st : RTState) :
    (evolveSwap d o st).mOffspringCount = st.mOffspringCount := by
  unfold evolveSwap
  cases st.mBrainList.findIdx? (fun b => b.org.id == d) <;> rfl

/-- The hot-swap phase of evolveAll does not touch the compatibility
threshold. -/
lemma evolveSwap_threshold (d : Nat) (o : Organism) (st : RTState) :
    (evolveSwap d o st).compatThreshold = st.compatThreshold := by
  unfold evolveSwap
  cases st.mBrainList.findIdx? (fun b => b.org.id == d) <;> rfl

/-- The death-scan fold does not touch the evolution tick counter. -/
lemma death_fold_evo (alive : Nat → Bool) :
    ∀ (l : List (Nat × Nat)) (s : RTState),
    (l.foldl (fun s p => if alive p.1 then s else deleteUnit p.2 s) s).mEvolutionTickCount
      = s.mEvolutionTickCount := by
  intro l
  induction l with
  | nil => intro s; rfl
  | cons p t ih =>
    intro s
    rw [List.foldl_cons, ih]
    by_cases h : alive p.1
    · rw [if_pos h]
    · rw [if_neg h]; rfl

/-- deathScan does not touch the evolution tick counter. -/
lemma deathScan_evo (alive : Nat → Bool) (st : RTState) :
    (deathScan alive st).mEvolutionTickCount = st.mEvolutionTickCount :=
  death_fold_evo alive st.mBrainBodyMap st

/-- The evolution tick counter after the pre-evolution tick phases is the
incoming counter plus one. -/
lemma tickPhases_evo (alive : Nat → Bool) (st : RTState) :
    (tickPhaseB (tickPhaseA alive st)).mEvolutionTickCount =
      st.mEvolutionTickCount + 1 := by
  show (tickPhaseA alive st).mEvolutionTickCount = st.mEvolutionTickCount + 1
  unfold tickPhaseA
  rw [deathScan_evo]

/-! ### Claim theorems -/

/-- A state with one actor (body 7) bound to brain 3 and an empty waiting
queue. -/
def c1State : RTState := { mBrainBodyMap := [(7, 3)] }

/-- C1: the claim states that after release the Brain is only in the
waiting queue and have_organism(actor) is false.  Evaluating
release_organism at a concrete bound state shows the source pushes the
brain onto the waiting queue but leaves the brain-body binding in place:
have_organism stays true and the brain is simultaneously bound and
queued, violating the claimed partition invariant. -/
theorem release_organism_keeps_binding_bug :
    release_organism 7 c1State =
      TableResult.ok { c1State with mWaitingBrainList := [3] } ∧
    have_organism 7 { c1State with mWaitingBrainList := [3] } = true ∧
    ({ c1State with mWaitingBrainList := [3] } : RTState).mWaitingBrainList.count 3 = 1 ∧
    ({ c1State with mWaitingBrainList := [3] } : RTState).mBrainBodyMap = [(7, 3)] := by
  refine ⟨rfl, rfl, rfl, rfl⟩

/-- A brain whose organism is past a time-alive minimum of 2 and not at a
trial boundary. -/
def c2Brain : PyOrganism :=
  { org := { id := 0, fitness := 0, time_alive := 3, smited := false },
    mAbsoluteScore := 2 }

/-- C2 counterexample: with one eligible Brain, the assertion that fires
in evaluateAll is the in-loop FIXME assert, not the doCalculations assert
the claim names, so the doCalculations assert is not executed on every
call. -/
theorem evaluateAll_assert_message_cex :
    evaluateAllAsserting 2 [c2Brain] =
      Except.error "FIXME/TODO: add stats samples" ∧
    "FIXME/TODO: add stats samples" ≠
      "FIXME/TODO: mScoreHelper->doCalculations()" := by
  refine ⟨rfl, by decide⟩

/-- C2 (amended): with assertions enabled every evaluateAll call fails a
FIXME assertion before any fitness normalization — the unconditional
doCalculations assert when no Brain is eligible, an earlier in-loop FIXME
assert otherwise — so no call ever returns normally and no ProcessTick
reaches the normalization loops or the evolution step. -/
theorem evaluateAll_always_asserts :
    ∀ (tam : Nat) (bs : List PyOrganism) (alive : Nat → Bool)
      (oracle : EngineOracle) (st : RTState),
      (∀ r, evaluateAllAsserting tam bs ≠ Except.ok r) ∧
      ((∀ b ∈ bs, b.org.time_alive < tam) →
        evaluateAllAsserting tam bs =
          Except.error "FIXME/TODO: mScoreHelper->doCalculations()") ∧
      (∀ r, ProcessTickAsserting alive oracle st ≠ Except.ok r) := by
  intro tam bs alive oracle st
  refine ⟨evaluateAllAsserting_ne_ok tam bs, fun h => ?_,
    ProcessTickAsserting_ne_ok alive oracle st⟩
  unfold evaluateAllAsserting
  rw [evalLoop1_all_young tam bs h]

/-- C2 witness: at the concrete input of an empty brain list, every
hypothesis is discharged and the doCalculations assertion message is
produced. -/
theorem evaluateAll_always_asserts_witness :
    evaluateAllAsserting 5 [] =
      Except.error "FIXME/TODO: mScoreHelper->doCalculations()" :=
  (evaluateAll_always_asserts 5 [] (fun _ => true)
      { removeWorst := none, numSpecies := 0,
        newOrg := { id := 0, fitness := 0, time_alive := 0, smited := false } }
      {}).2.1 (fun b hb => absurd hb (List.not_mem_nil b))

/-- C4: the aggregation pass of evaluateAll.  minAbsoluteScore is
min(0, minimum of the eligible raw scores); each eligible un-smited
organism's fitness becomes max(0, score - minScore) when minScore is
negative and the unchanged score otherwise; every eligible organism's
resulting fitness is non-negative; brains below the time-alive minimum
are untouched. -/
theorem aggregation_pass_spec :
    ∀ (tam : Nat) (bs : List PyOrganism),
      (minAbsoluteScore tam bs ≤ 0 ∧
       (∀ b ∈ bs, tam ≤ b.org.time_alive →
          minAbsoluteScore tam bs ≤ b.mAbsoluteScore) ∧
       (minAbsoluteScore tam bs = 0 ∨
         ∃ b ∈ bs, tam ≤ b.org.time_alive ∧
           b.mAbsoluteScore = minAbsoluteScore tam bs)) ∧
      ∀ p ∈ bs.zip (aggregationPass tam bs),
        (tam ≤ p.1.org.time_alive → p.1.org.smited = false →
          p.2.org.fitness =
            (if minAbsoluteScore tam bs < 0 then
               max 0 (p.1.mAbsoluteScore - minAbsoluteScore tam bs)
             else p.1.mAbsoluteScore)) ∧
        (tam ≤ p.1.org.time_alive → 0 ≤ p.2.org.fitness) ∧
        (p.1.org.time_alive < tam → p.2 = p.1) := by
  intro tam bs
  refine ⟨⟨minAbs_nonpos tam bs,
    fun b hb he => minAbs_le_mem tam bs b hb he, minAbs_attained tam bs⟩, ?_⟩
  intro p hp
  exact ⟨fun he hs => agg_fitness_unsmited tam bs p hp he hs,
    fun he => agg_fitness_nonneg tam bs p hp he,
    fun hlt => agg_untouched tam bs p hp hlt⟩

/-- An eligible un-smited brain with raw score -5 and stale fitness 7. -/
def c4Brain : PyOrganism :=
  { org := { id := 0, fitness := 7, time_alive := 3, smited := false },
    mAbsoluteScore := -5 }

/-- The same brain after the pass: score shifted by the minimum, fitness
0. -/
def c4BrainOut : PyOrganism :=
  { org := { id := 0, fitness := 0, time_alive := 3, smited := false },
    mAbsoluteScore := -5 }

/-- C4 witness: at the concrete one-brain list with raw score -5, the
pass shifts the score by the minimum and the resulting fitness is 0. -/
theorem aggregation_pass_spec_witness :
    0 ≤ ((aggregationPass 1 [c4Brain]).getD 0 c4Brain).org.fitness ∧
    ((aggregationPass 1 [c4Brain]).getD 0 c4Brain).org.fitness = 0 := by
  have hagg : aggregationPass 1 [c4Brain] = [c4BrainOut] := by
    norm_num [aggregationPass, minAbsoluteScore, applyFitnessNeg, c4Brain, c4BrainOut]
  have hm : (c4Brain, (aggregationPass 1 [c4Brain]).getD 0 c4Brain) ∈
      [c4Brain].zip (aggregationPass 1 [c4Brain]) := by
    rw [hagg]; simp
  have h := (aggregation_pass_spec 1 [c4Brain]).2 _ hm
  refine ⟨h.2.1 (by norm_num [c4Brain]), ?_⟩
  rw [hagg]
  norm_num [c4BrainOut]

/-- A state with an empty brain-body map and an empty waiting queue. -/
def c5State : RTState := {}

/-- C5 counterexample: requesting a brain for an unbound actor with an
empty waiting queue does not fail through any checked assertion — the
source calls front()/pop() on the empty std::queue unchecked, which is
undefined behavior, and the only guard is the separate ready() query. -/
theorem get_organism_empty_queue_cex :
    get_organism 0 c5State = TableResult.undefinedBehavior ∧
    (get_organism 0 c5State).isAssertFailed = false ∧
    ready c5State = false := by
  refine ⟨rfl, rfl, rfl⟩

/-- C5 (amended): get_organism on an unbound actor does not check that
the waiting queue is non-empty; with an empty queue it performs the
unchecked empty-queue pop (undefined behavior, not a fatal assertion),
and with a non-empty queue it pops the front brain and installs the
binding.  The non-empty queue is only observable through ready(). -/
theorem get_organism_unchecked_precondition :
    ∀ (st : RTState) (body : Nat),
      st.mBrainBodyMap.find? (fun p => p.1 == body) = none →
      (st.mWaitingBrainList = [] →
        get_organism body st = TableResult.undefinedBehavior ∧
        ready st = false) ∧
      (∀ b rest, st.mWaitingBrainList = b :: rest →
        get_organism body st =
          TableResult.ok (b, { st with mWaitingBrainList := rest,
                                       mBrainBodyMap := st.mBrainBodyMap ++ [(body, b)] })) := by
  intro st body h
  constructor
  · intro hq
    constructor
    · unfold get_organism; rw [h, hq]
    · unfold ready; rw [hq]; rfl
  · intro b rest hq
    unfold get_organism; rw [h, hq]

/-- A state with an empty brain-body map and brain 4 waiting. -/
def c5StateB : RTState := { mWaitingBrainList := [4] }

/-- C5 witness: at a concrete unbound actor with brain 4 waiting, the
theorem's hypotheses are discharged and the pop installs the binding. -/
theorem get_organism_unchecked_precondition_witness :
    get_organism 9 c5StateB =
      TableResult.ok (4, { c5StateB with mWaitingBrainList := [],
                                         mBrainBodyMap := [(9, 4)] }) := by
  have h := (get_organism_unchecked_precondition c5StateB 9 rfl).2 4 [] rfl
  simpa using h

/-- An eligible smited brain with raw score 0. -/
def c9BrainS : PyOrganism :=
  { org := { id := 1, fitness := 7, time_alive := 2, smited := true },
    mAbsoluteScore := 0 }

/-- An eligible un-smited brain with raw score 0. -/
def c9BrainU : PyOrganism :=
  { org := { id := 2, fitness := 7, time_alive := 2, smited := false },
    mAbsoluteScore := 0 }

/-- The smited zero-score brain after the pass: fitness 0.01 * 0 = 0. -/
def c9OutS : PyOrganism :=
  { org := { id := 1, fitness := 0, time_alive := 2, smited := true },
    mAbsoluteScore := 0 }

/-- The un-smited zero-score brain after the pass: fitness 0. -/
def c9OutU : PyOrganism :=
  { org := { id := 2, fitness := 0, time_alive := 2, smited := false },
    mAbsoluteScore := 0 }

/-- C9 counterexample: two eligible organisms with identical raw score 0,
one smited and one not, both end the pass with fitness 0, so smiting does
not strictly reduce fitness at this input. -/
theorem smite_not_strict_at_zero_cex :
    ((aggregationPass 1 [c9BrainS, c9BrainU]).getD 0 c9BrainS).org.fitness = 0 ∧
    ((aggregationPass 1 [c9BrainS, c9BrainU]).getD 1 c9BrainU).org.fitness = 0 ∧
    ¬(((aggregationPass 1 [c9BrainS, c9BrainU]).getD 0 c9BrainS).org.fitness <
      ((aggregationPass 1 [c9BrainS, c9BrainU]).getD 1 c9BrainU).org.fitness) := by
  have hagg : aggregationPass 1 [c9BrainS, c9BrainU] = [c9OutS, c9OutU] := by
    norm_num [aggregationPass, minAbsoluteScore, applyFitnessNonneg,
      c9BrainS, c9BrainU, c9OutS, c9OutU]
  rw [hagg]
  norm_num [c9OutS, c9OutU]

/-- C9 (amended): for two eligible organisms with identical raw score in
the same pass, one smited and one not, the smited fitness is exactly 0.01
times the un-smited fitness; smiting never increases fitness, and
strictly reduces it exactly when the un-smited resulting fitness is
positive (when that fitness is 0 both are 0). -/
theorem smite_factor_relation :
    ∀ (tam : Nat) (bs : List PyOrganism) (p q : PyOrganism × PyOrganism),
      p ∈ bs.zip (aggregationPass tam bs) →
      q ∈ bs.zip (aggregationPass tam bs) →
      tam ≤ p.1.org.time_alive → tam ≤ q.1.org.time_alive →
      p.1.org.smited = true → q.1.org.smited = false →
      p.1.mAbsoluteScore = q.1.mAbsoluteScore →
      p.2.org.fitness = (1 / 100 : ℚ) * q.2.org.fitness ∧
      p.2.org.fitness ≤ q.2.org.fitness ∧
      (0 < q.2.org.fitness → p.2.org.fitness < q.2.org.fitness) := by
  intro tam bs p q hp hq hep heq hs hu hscore
  have fq := agg_fitness_unsmited tam bs q hq heq hu
  have fp := agg_fitness_smited tam bs p hp hep hs
  rw [hscore] at fp
  rw [← fq] at fp
  have hnn : 0 ≤ q.2.org.fitness := agg_fitness_nonneg tam bs q hq heq
  refine ⟨fp, ?_, fun hpos => ?_⟩
  · rw [fp]; linarith
  · rw [fp]; linarith

/-- An eligible smited brain with raw score 8. -/
def c9PosS : PyOrganism :=
  { org := { id := 1, fitness := 0, time_alive := 2, smited := true },
    mAbsoluteScore := 8 }

/-- An eligible un-smited brain with raw score 8. -/
def c9PosU : PyOrganism :=
  { org := { id := 2, fitness := 0, time_alive := 2, smited := false },
    mAbsoluteScore := 8 }

/-- The smited brain after the pass: fitness 0.01 * 8 = 2/25. -/
def c9PosOutS : PyOrganism :=
  { org := { id := 1, fitness := 2 / 25, time_alive := 2, smited := true },
    mAbsoluteScore := 8 }

/-- The un-smited brain after the pass: fitness 8. -/
def c9PosOutU : PyOrganism :=
  { org := { id := 2, fitness := 8, time_alive := 2, smited := false },
    mAbsoluteScore := 8 }

/-- C9 witness: two eligible brains with identical positive raw score 8
(one smited, one not) in a pass with minimum score 0: the smited fitness
is 0.01 times the un-smited fitness and strictly below it. -/
theorem smite_factor_relation_witness :
    ((aggregationPass 1 [c9PosS, c9PosU]).getD 0 c9PosS).org.fitness =
      (1 / 100 : ℚ) *
        ((aggregationPass 1 [c9PosS, c9PosU]).getD 1 c9PosU).org.fitness ∧
    ((aggregationPass 1 [c9PosS, c9PosU]).getD 0 c9PosS).org.fitness <
      ((aggregationPass 1 [c9PosS, c9PosU]).getD 1 c9PosU).org.fitness := by
  have hagg : aggregationPass 1 [c9PosS, c9PosU] = [c9PosOutS, c9PosOutU] := by
    norm_num [aggregationPass, minAbsoluteScore, applyFitnessNonneg,
      c9PosS, c9PosU, c9PosOutS, c9PosOutU]
  have hmS : (c9PosS, (aggregationPass 1 [c9PosS, c9PosU]).getD 0 c9PosS) ∈
      [c9PosS, c9PosU].zip (aggregationPass 1 [c9PosS, c9PosU]) := by
    rw [hagg]; simp
  have hmU : (c9PosU, (aggregationPass 1 [c9PosS, c9PosU]).getD 1 c9PosU) ∈
      [c9PosS, c9PosU].zip (aggregationPass 1 [c9PosS, c9PosU]) := by
    rw [hagg]; simp
  have h := smite_factor_relation 1 [c9PosS, c9PosU] _ _ hmS hmU
    (by norm_num [c9PosS]) (by norm_num [c9PosU])
    (by norm_num [c9PosS]) (by norm_num [c9PosU])
    (by norm_num [c9PosS, c9PosU])
  refine ⟨h.1, h.2.2 ?_⟩
  rw [hagg]
  norm_num [c9PosOutU]

/-- A state one tick short of the evolution rate limit, with the deletion
threshold already met. -/
def c3State : RTState :=
  { mEvolutionTickCount := 9, mTotalUnitsDeleted := 5,
    mUnitsToDeleteBeforeFirstJudgment := 5, mTimeBetweenEvolutions := 10 }

/-- An engine response in which remove_worst found no eligible organism. -/
def c3Oracle : EngineOracle :=
  { removeWorst := none, numSpecies := 0,
    newOrg := { id := 0, fitness := 0, time_alive := 0, smited := false } }

/-- C3 counterexample: the activation predicate holds on this tick but
remove_worst removes nothing; the claim says mEvolutionTickCount is not
reset, yet ProcessTick leaves it at 0 instead of the not-reset value 10. -/
theorem evolution_tick_reset_cex :
    c3Oracle.removeWorst = none ∧
    evolvePredicate (tickPhaseB (tickPhaseA (fun _ => true) c3State)) = true ∧
    (ProcessTickRelease (fun _ => true) c3Oracle c3State).mEvolutionTickCount = 0 ∧
    c3State.mEvolutionTickCount + 1 = 10 ∧
    (0 : Nat) ≠ 10 := by
  exact ⟨rfl, rfl, rfl, rfl, by decide⟩

/-- C3 (amended): when remove_worst returns no organism the evolution
cycle itself is a no-op (evolveAll changes no controller state), but
ProcessTick still resets mEvolutionTickCount to zero whenever the
activation predicate held, whether or not a removal occurred. -/
theorem evolveAll_noop_but_tick_reset :
    ∀ (alive : Nat → Bool) (oracle : EngineOracle) (st : RTState),
      oracle.removeWorst = none →
      (∀ s : RTState, evolveAll oracle s = s) ∧
      (evolvePredicate (tickPhaseB (tickPhaseA alive st)) = true →
        (ProcessTickRelease alive oracle st).mEvolutionTickCount = 0) := by
  intro alive oracle st h
  constructor
  · intro s
    unfold evolveAll
    rw [h]
  · intro hp
    simp only [ProcessTickRelease]
    rw [if_pos hp]

/-- C3 witness: at the concrete no-removal tick, evolveAll is the
identity and the counter is nevertheless reset to zero. -/
theorem evolveAll_noop_but_tick_reset_witness :
    evolveAll c3Oracle c3State = c3State ∧
    (ProcessTickRelease (fun _ => true) c3Oracle c3State).mEvolutionTickCount = 0 := by
  have h := evolveAll_noop_but_tick_reset (fun _ => true) c3Oracle c3State rfl
  exact ⟨h.1 c3State, h.2 rfl⟩

/-- C6 counterexample: at a species count of 4 the claim (target 5)
demands a decrease by 0.1, but the code leaves the threshold unchanged;
at a species count of 5 the claim demands no change, but the code
increases the threshold by 0.1. -/
theorem species_target_is_four_cex :
    adjustThreshold 4 1 = 1 ∧
    ¬(adjustThreshold 4 1 = 1 - 1 / 10) ∧
    adjustThreshold 5 1 = 1 + 1 / 10 ∧
    ¬(adjustThreshold 5 1 = 1) := by
  norm_num [adjustThreshold, adjustStep, num_species_target, compat_mod]

/-- C6 (amended): the threshold is re-tuned toward the hard-coded local
target of 4 species (the file-level kNumSpeciesTarget constant is 5 but
is unused by evolveAll): decreased by 0.1 when the species count is below
4, increased by 0.1 when above 4, unchanged at exactly 4, and in every
case clamped at the 0.3 floor. -/
theorem adjust_threshold_target_four :
    ∀ (ns : Nat) (t : ℚ),
      (ns < num_species_target →
        adjustThreshold ns t = max (3 / 10) (t - compat_mod)) ∧
      (num_species_target < ns →
        adjustThreshold ns t = max (3 / 10) (t + compat_mod)) ∧
      (ns = num_species_target → adjustThreshold ns t = max (3 / 10) t) ∧
      num_species_target = 4 ∧ kNumSpeciesTarget = 5 := by
  intro ns t
  refine ⟨fun h => ?_, fun h => ?_, fun h => ?_, rfl, rfl⟩
  · rw [adjustThreshold_eq_max]
    unfold adjustStep
    rw [if_pos h]
  · rw [adjustThreshold_eq_max]
    unfold adjustStep
    rw [if_neg (Nat.lt_asymm h), if_pos h]
  · subst h
    rw [adjustThreshold_eq_max]
    unfold adjustStep
    rw [if_neg (lt_irrefl _), if_neg (lt_irrefl _)]

/-- C6 witness: at the concrete species count 3 (below the target) the
threshold 1 steps down by 0.1 (clamped at 0.3). -/
theorem adjust_threshold_target_four_witness :
    adjustThreshold 3 1 = max (3 / 10) (1 - compat_mod) :=
  (adjust_threshold_target_four 3 1).1 (by decide)

/-- C7: an evolution cycle runs on a tick if and only if the activation
predicate holds after the death scan and evaluation: the counter is reset
to zero exactly when the deletion count has reached its threshold and the
evolution tick counter has reached its threshold; when the predicate
fails the tick performs no evolution work at all (the state is exactly
the pre-evolution state), and when it holds the tick is exactly evolveAll
followed by the counter reset. -/
theorem evolution_activation_iff :
    ∀ (alive : Nat → Bool) (oracle : EngineOracle) (st : RTState),
      ((ProcessTickRelease alive oracle st).mEvolutionTickCount = 0 ↔
        ((tickPhaseB (tickPhaseA alive st)).mUnitsToDeleteBeforeFirstJudgment ≤
            (tickPhaseB (tickPhaseA alive st)).mTotalUnitsDeleted ∧
         (tickPhaseB (tickPhaseA alive st)).mTimeBetweenEvolutions ≤
            (tickPhaseB (tickPhaseA alive st)).mEvolutionTickCount)) ∧
      (evolvePredicate (tickPhaseB (tickPhaseA alive st)) = false →
        ProcessTickRelease alive oracle st = tickPhaseB (tickPhaseA alive st)) ∧
      (evolvePredicate (tickPhaseB (tickPhaseA alive st)) = true →
        ProcessTickRelease alive oracle st =
          { evolveAll oracle (tickPhaseB (tickPhaseA alive st)) with
              mEvolutionTickCount := 0 }) := by
  intro alive oracle st
  by_cases hp : evolvePredicate (tickPhaseB (tickPhaseA alive st)) = true
  · have heq : ProcessTickRelease alive oracle st =
        { evolveAll oracle (tickPhaseB (tickPhaseA alive st)) with
            mEvolutionTickCount := 0 } := by
      simp only [ProcessTickRelease]
      rw [if_pos hp]
    refine ⟨⟨fun _ => ?_, fun _ => ?_⟩, fun hf => absurd hp (by simp [hf]),
      fun _ => heq⟩
    · simpa [evolvePredicate] using hp
    · rw [heq]
  · have heq : ProcessTickRelease alive oracle st =
        tickPhaseB (tickPhaseA alive st) := by
      simp only [ProcessTickRelease]
      rw [if_neg hp]
    refine ⟨⟨fun h0 => ?_, fun hAB => ?_⟩, fun _ => heq, fun ht => absurd ht hp⟩
    · exfalso
      rw [heq, tickPhases_evo] at h0
      exact Nat.succ_ne_zero _ h0
    · exfalso
      refine hp ?_
      simp only [evolvePredicate, Bool.and_eq_true, decide_eq_true_eq]
      exact hAB

/-- C7 witness: at the concrete state meeting both thresholds, the tick
is exactly evolveAll followed by the counter reset. -/
theorem evolution_activation_iff_witness :
    ProcessTickRelease (fun _ => true) c3Oracle c3State =
      { evolveAll c3Oracle (tickPhaseB (tickPhaseA (fun _ => true) c3State)) with
          mEvolutionTickCount := 0 } :=
  (evolution_activation_iff (fun _ => true) c3Oracle c3State).2.2 rfl

/-- C8: a single evolution cycle never takes the compatibility threshold
below the 0.3 floor: if it was at least 0.3 before the cycle it is at
least 0.3 after it (and the adjustment clamp makes the adjusted value at
least 0.3 unconditionally). -/
theorem compat_threshold_floor :
    ∀ (oracle : EngineOracle) (st : RTState),
      3 / 10 ≤ st.compatThreshold →
      3 / 10 ≤ (evolveAll oracle st).compatThreshold := by
  intro oracle st h
  unfold evolveAll
  cases hro : oracle.removeWorst with
  | none => exact h
  | some deadId =>
    rw [evolveSwap_threshold]
    unfold evolveAdjust
    by_cases hc : (evolveReproduce st).mOffspringCount %
        compat_adjust_frequency (evolveReproduce st).mBrainList.length = 0
    · rw [if_pos hc]
      exact adjustThreshold_ge _ _
    · rw [if_neg hc]
      exact h

/-- An engine response removing organism 0 with 2 species left. -/
def c8Oracle : EngineOracle :=
  { removeWorst := some 0, numSpecies := 2,
    newOrg := { id := 0, fitness := 0, time_alive := 0, smited := false } }

/-- C8 witness: from the default threshold 1 a below-target cycle leaves
the threshold at least 0.3. -/
theorem compat_threshold_floor_witness :
    3 / 10 ≤ (evolveAll c8Oracle ({} : RTState)).compatThreshold :=
  compat_threshold_floor c8Oracle {} (by show (3 / 10 : ℚ) ≤ 1; norm_num)

/-- A brain with organism id 0, used only to populate a brain list. -/
def bPlain : PyOrganism :=
  { org := { id := 0, fitness := 0, time_alive := 0, smited := false },
    mAbsoluteScore := 0 }

/-- A state as left by the 47-organism constructor: 47 brains and
mOffspringCount already at 47 (both constructors set mOffspringCount to
the initial population size, rtNEAT.cpp lines 51 and 78). -/
def c10State : RTState :=
  { mBrainList := List.replicate 47 bPlain, mOffspringCount := 47 }

/-- An engine response removing organism 99 with 3 species left. -/
def c10Oracle : EngineOracle :=
  { removeWorst := some 99, numSpecies := 3,
    newOrg := { id := 500, fitness := 0, time_alive := 0, smited := false } }

/-- C10 counterexample: with 47 brains the frequency is 4 as claimed, but
because mOffspringCount starts at the initial population size 47, the
very first reproduction event (counter 47 -> 48, divisible by 4) already
adjusts the threshold — the claim says adjustments happen only on the
4th, 8th, 12th... reproduction events. -/
theorem compat_adjust_cadence_cex :
    c10State.mOffspringCount = 47 ∧
    c10State.mBrainList.length = 47 ∧
    compat_adjust_frequency 47 = 4 ∧
    (evolveAll c10Oracle c10State).mOffspringCount = 48 ∧
    (evolveAll c10Oracle c10State).compatThreshold = 9 / 10 ∧
    ¬((evolveAll c10Oracle c10State).compatThreshold = c10State.compatThreshold) := by
  have hth : (evolveAll c10Oracle c10State).compatThreshold = adjustThreshold 3 1 := by
    show (evolveSwap 99 c10Oracle.newOrg
      (evolveAdjust 3 (evolveReproduce c10State))).compatThreshold = _
    rw [evolveSwap_threshold]
    unfold evolveAdjust
    rw [if_pos (by decide : (evolveReproduce c10State).mOffspringCount %
      compat_adjust_frequency (evolveReproduce c10State).mBrainList.length = 0)]
    norm_num [evolveReproduce, c10State]
  have hco : (evolveAll c10Oracle c10State).mOffspringCount = 48 := by
    show (evolveSwap 99 c10Oracle.newOrg
      (evolveAdjust 3 (evolveReproduce c10State))).mOffspringCount = 48
    rw [evolveSwap_count]
    unfold evolveAdjust
    split_ifs <;> rfl
  refine ⟨rfl, by decide, by decide, hco, ?_, ?_⟩
  · rw [hth]
    norm_num [adjustThreshold, adjustStep, num_species_target, compat_mod]
  · rw [hth]
    norm_num [adjustThreshold, adjustStep, num_species_target, compat_mod, c10State]

/-- C10 (amended): compatAdjustFrequency is max(1, brainCount/10) (4 for
47 brains), and when a removal occurred the threshold adjustment and
species reassignment run exactly on the reproductions whose
post-increment offspring counter — which starts at the initial population
size, not at zero — is divisible by compatAdjustFrequency. -/
theorem compat_adjust_cadence :
    ∀ (oracle : EngineOracle) (st : RTState) (deadId : Nat),
      oracle.removeWorst = some deadId →
      compat_adjust_frequency st.mBrainList.length =
        max 1 (st.mBrainList.length / 10) ∧
      (evolveAll oracle st).mOffspringCount = st.mOffspringCount + 1 ∧
      (evolveAll oracle st).compatThreshold =
        (if (st.mOffspringCount + 1) %
              compat_adjust_frequency st.mBrainList.length = 0
         then adjustThreshold oracle.numSpecies st.compatThreshold
         else st.compatThreshold) ∧
      compat_adjust_frequency 47 = 4 := by
  intro oracle st deadId h
  refine ⟨?_, ?_, ?_, by decide⟩
  · unfold compat_adjust_frequency
    rcases Nat.lt_or_ge (st.mBrainList.length / 10) 1 with hlt | hge
    · rw [if_pos hlt, Nat.lt_one_iff.mp hlt]
      exact (Nat.max_eq_left (Nat.zero_le 1)).symm
    · rw [if_neg (not_lt.mpr hge)]
      exact (Nat.max_eq_right hge).symm
  · simp only [evolveAll, h]
    rw [evolveSwap_count]
    unfold evolveAdjust
    split_ifs <;> rfl
  · simp only [evolveAll, h]
    rw [evolveSwap_threshold]
    simp only [evolveAdjust, evolveReproduce]
    split_ifs with hc <;> rfl

/-- C10 witness: at the concrete post-constructor state with 47 brains
and counter 47, the first reproduction event increments the counter to 48
and adjusts the threshold. -/
theorem compat_adjust_cadence_witness :
    (evolveAll c10Oracle c10State).mOffspringCount = 48 ∧
    (evolveAll c10Oracle c10State).compatThreshold = adjustThreshold 3 1 := by
  have h := compat_adjust_cadence c10Oracle c10State 99 rfl
  constructor
  · rw [h.2.1]
    rfl
  · rw [h.2.2.1,
      if_pos (by decide : (c10State.mOffspringCount + 1) %
        compat_adjust_frequency c10State.mBrainList.length = 0)]
    rfl
